import Mathlib

/-!
Shallow embedding of `src/backend-websocket/main.py` (konnect-chat).

The registry state of `ConnectionManager` (`self.active_connections :
Dict[str, Set[WebSocket]]`) is modelled as an association list from group
ids to member lists; Python set iteration becomes list traversal, and the
no-duplicates property of a Python set appears as `List.Nodup` hypotheses
where a claim needs it.  A websocket handle is an opaque identifier
(`Conn := Nat`); `send_json` failure (the `RuntimeError` caught by
`broadcast_to_group`) is modelled by a failure oracle `fails : Conn → Bool`.
`set.remove`'s `KeyError` and the propagation of exceptions out of
`websocket_endpoint`'s handlers are modelled with `Except`.
-/

namespace ConnMgr

abbrev Conn := Nat
abbrev GroupId := String

/-- The two JSON payload shapes built by `main.py`:
`{"type": "system", "message": m}` and
`{"type": "chat", "sender": s, "groupId": g, "message": m}`. -/
inductive Payload
  | system (message : String)
  | chat (sender : String) (groupId : String) (message : String)
deriving DecidableEq

/-- `self.active_connections : Dict[str, Set[WebSocket]]`. -/
abbrev Registry := List (GroupId × List Conn)

/-- Python `group_id in self.active_connections` / `self.active_connections[group_id]`. -/
def lookupGroup : Registry → GroupId → Option (List Conn)
  | [], _ => none
  | (g', ms) :: r, g => if g' = g then some ms else lookupGroup r g

/-- Python `self.active_connections[group_id] = ms` (update in place, or add the key). -/
def setGroup : Registry → GroupId → List Conn → Registry
  | [], g, ms => [(g, ms)]
  | (g', ms') :: r, g, ms =>
      if g' = g then (g, ms) :: r else (g', ms') :: setGroup r g ms

/-- Python `del self.active_connections[group_id]`. -/
def delGroup (r : Registry) (g : GroupId) : Registry :=
  r.filter (fun e => !(e.1 == g))

/-- `connection is not exclude_self` in `broadcast_to_group`, as a skip test. -/
def isExcluded (exclude_self : Option Conn) (c : Conn) : Bool :=
  match exclude_self with
  | some e => c == e
  | none => false

/-- What one call to `broadcast_to_group` does: the registry afterwards, the
connections a send was attempted on (every non-excluded member, in order),
and the successful deliveries. -/
structure BroadcastResult where
  registry : Registry
  attempts : List Conn
  delivered : List (Conn × Payload)
deriving DecidableEq

/-- `ConnectionManager.broadcast_to_group`: iterate over the group's member
set, skipping `exclude_self`; a send that raises (`fails c = true`) puts `c`
into `disconnected_sockets`; afterwards, if any send failed, the failed
sockets are subtracted from the member set (`-=`).  No emptiness check and
no deletion of the group entry happen on this path. -/
def broadcast_to_group (r : Registry) (g : GroupId) (payload : Payload)
    (exclude_self : Option Conn) (fails : Conn → Bool) : BroadcastResult :=
  match lookupGroup r g with
  | none => ⟨r, [], []⟩
  | some members =>
      let targets := members.filter (fun c => !isExcluded exclude_self c)
      let delivered := (targets.filter (fun c => !fails c)).map (fun c => (c, payload))
      let disconnected := targets.filter (fun c => fails c)
      if disconnected.isEmpty then ⟨r, targets, delivered⟩
      else ⟨setGroup r g (members.filter (fun c => !disconnected.contains c)),
            targets, delivered⟩

/-- The system announcement built in `ConnectionManager.connect`. -/
def joinedMsg (user_name : String) : Payload :=
  Payload.system ("User '" ++ user_name ++ "' joined the chat.")

/-- The system announcement built in the `WebSocketDisconnect` handler of
`websocket_endpoint`. -/
def leftMsg (user_name : String) : Payload :=
  Payload.system ("User '" ++ user_name ++ "' left the chat.")

/-- `ConnectionManager.connect`: create the group's entry if absent, add the
websocket to its set (`set.add`: no-op when already present), then broadcast
the join announcement with `exclude_self=None`.  (`websocket.accept()` is a
pure transport step with no registry effect and is not modelled.) -/
def connect (r : Registry) (websocket : Conn) (g : GroupId) (user_name : String)
    (fails : Conn → Bool) : BroadcastResult :=
  let members := match lookupGroup r g with
    | none => []
    | some ms => ms
  let r1 := setGroup r g (if websocket ∈ members then members else members ++ [websocket])
  broadcast_to_group r1 g (joinedMsg user_name) none fails

/-- `ConnectionManager.disconnect`: when the group has an entry,
`set.remove` deletes the websocket but raises `KeyError` (`Except.error ()`)
when it is not a member; when removal empties the set the group entry is
deleted; when the group has no entry nothing happens. -/
def disconnect (r : Registry) (websocket : Conn) (g : GroupId) : Except Unit Registry :=
  match lookupGroup r g with
  | none => Except.ok r
  | some members =>
      if websocket ∈ members then
        let ms := members.erase websocket
        if ms.isEmpty then Except.ok (delGroup r g) else Except.ok (setGroup r g ms)
      else Except.error ()

/-- `data.get("message", default)` on the received JSON object, the object
modelled as an association list of string fields. -/
def jget (data : List (String × String)) (key default_val : String) : String :=
  match data.find? (fun p => p.1 == key) with
  | some p => p.2
  | none => default_val

/-- The body of `websocket_endpoint`'s receive loop for one inbound JSON
object: build the chat envelope with `data.get("message", "")` and broadcast
it with no exclusion. -/
def handle_message (r : Registry) (g user_name : String)
    (data : List (String × String)) (fails : Conn → Bool) : BroadcastResult :=
  broadcast_to_group r g (Payload.chat user_name g (jget data "message" "")) none fails

/-- How the receive loop of `websocket_endpoint` ended. -/
inductive ExitKind
  | clientDisconnect
  | otherError
deriving DecidableEq

/-- The exception handlers of `websocket_endpoint`: both call
`manager.disconnect` (whose `KeyError` would propagate); only the
`WebSocketDisconnect` handler then broadcasts the departure announcement
with `exclude_self=None`. -/
def handle_exit (r : Registry) (websocket : Conn) (g user_name : String)
    (k : ExitKind) (fails : Conn → Bool) : Except Unit BroadcastResult :=
  match disconnect r websocket g with
  | Except.error e => Except.error e
  | Except.ok r1 =>
      match k with
      | ExitKind.clientDisconnect =>
          Except.ok (broadcast_to_group r1 g (leftMsg user_name) none fails)
      | ExitKind.otherError => Except.ok ⟨r1, [], []⟩

/-- A registry operation, for stating invariants over operation sequences.
`join` and `bcast` carry the failure oracle governing sends made during
that call. -/
inductive Op
  | join (c : Conn) (g : GroupId) (u : String) (fails : Conn → Bool)
  | leave (c : Conn) (g : GroupId)
  | bcast (g : GroupId) (p : Payload) (ex : Option Conn) (fails : Conn → Bool)

/-- Apply one operation to the registry.  A `KeyError` raised by `leave`
leaves the registry as it was (Python `set.remove` raises before mutating). -/
def applyOp (r : Registry) : Op → Registry
  | Op.join c g u fails => (connect r c g u fails).registry
  | Op.leave c g =>
      match disconnect r c g with
      | Except.ok r' => r'
      | Except.error _ => r
  | Op.bcast g p ex fails => (broadcast_to_group r g p ex fails).registry

/-- Run a sequence of operations from a starting registry. -/
def runOps (r : Registry) (ops : List Op) : Registry :=
  ops.foldl applyOp r

/-- The spec's registry invariant: no entry maps to an empty member set. -/
def noEmptyGroups (r : Registry) : Prop :=
  ∀ e ∈ r, e.2 ≠ []

/-- An operation during which no send fails (so no eviction can happen). -/
def evictionFree : Op → Prop
  | Op.join _ _ _ fails => ∀ c, fails c = false
  | Op.leave _ _ => True
  | Op.bcast _ _ _ fails => ∀ c, fails c = false

theorem lookupGroup_setGroup_self (r : Registry) (g : GroupId) (ms : List Conn) :
    lookupGroup (setGroup r g ms) g = some ms := by
  induction r with
  | nil => simp [setGroup, lookupGroup]
  | cons e r ih =>
      by_cases h : e.1 = g
      · simp [setGroup, h, lookupGroup]
      · simp [setGroup, h, lookupGroup, ih]

theorem lookupGroup_setGroup_ne (r : Registry) (g g' : GroupId) (ms : List Conn)
    (h : g' ≠ g) : lookupGroup (setGroup r g ms) g' = lookupGroup r g' := by
  have hgg : ¬ g = g' := fun hc => h hc.symm
  induction r with
  | nil => simp [setGroup, lookupGroup, hgg]
  | cons e r ih =>
      obtain ⟨a, b⟩ := e
      by_cases he : a = g
      · have he' : ¬ a = g' := by rw [he]; exact hgg
        simp [setGroup, he, lookupGroup, hgg, he']
      · by_cases he' : a = g'
        · simp [setGroup, he, lookupGroup, he', h]
        · simp [setGroup, he, lookupGroup, he', ih]

theorem lookupGroup_delGroup_ne (r : Registry) (g g' : GroupId)
    (h : g' ≠ g) : lookupGroup (delGroup r g) g' = lookupGroup r g' := by
  have hgg : ¬ g = g' := fun hc => h hc.symm
  induction r with
  | nil => simp [delGroup, lookupGroup]
  | cons e r ih =>
      obtain ⟨a, b⟩ := e
      by_cases he : a = g
      · have he' : ¬ a = g' := by rw [he]; exact hgg
        simp only [delGroup, List.filter_cons] at ih ⊢
        simp [he, he', lookupGroup, ih, hgg]
      · by_cases he' : a = g'
        · simp only [delGroup, List.filter_cons] at ih ⊢
          simp [he, he', lookupGroup, h]
        · simp only [delGroup, List.filter_cons] at ih ⊢
          simp [he, he', lookupGroup, ih]

theorem mem_setGroup {e : GroupId × List Conn} {r : Registry} {g : GroupId}
    {ms : List Conn} (h : e ∈ setGroup r g ms) : e ∈ r ∨ e = (g, ms) := by
  induction r with
  | nil => simp [setGroup] at h; simp [h]
  | cons e' r ih =>
      by_cases he : e'.1 = g
      · simp [setGroup, he] at h
        rcases h with h | h
        · right; exact h
        · left; simp [h]
      · simp [setGroup, he] at h
        rcases h with h | h
        · left; simp [h]
        · rcases ih h with h' | h'
          · left; simp [h']
          · right; exact h'

theorem mem_delGroup {e : GroupId × List Conn} {r : Registry} {g : GroupId}
    (h : e ∈ delGroup r g) : e ∈ r :=
  List.mem_of_mem_filter h

theorem broadcast_registry_no_fail (r : Registry) (g : GroupId) (p : Payload)
    (ex : Option Conn) (fails : Conn → Bool) (hf : ∀ c, fails c = false) :
    (broadcast_to_group r g p ex fails).registry = r := by
  unfold broadcast_to_group
  cases hm : lookupGroup r g with
  | none => rfl
  | some members =>
      dsimp only
      have hd : (members.filter (fun c => !isExcluded ex c)).filter (fun c => fails c) = [] :=
        List.filter_eq_nil_iff.2 (fun a _ => by simp [hf])
      rw [hd]
      rfl

theorem broadcast_delivered_no_fail (r : Registry) (g : GroupId) (p : Payload)
    (fails : Conn → Bool) (members : List Conn) (hm : lookupGroup r g = some members)
    (hf : ∀ c, fails c = false) :
    (broadcast_to_group r g p none fails).delivered = members.map (fun c => (c, p)) := by
  unfold broadcast_to_group
  rw [hm]
  dsimp only
  have ht : members.filter (fun c => !isExcluded none c) = members :=
    List.filter_eq_self.2 (fun a _ => by simp [isExcluded])
  have hs : members.filter (fun c => !fails c) = members :=
    List.filter_eq_self.2 (fun a _ => by simp [hf])
  have hd : members.filter (fun c => fails c) = [] :=
    List.filter_eq_nil_iff.2 (fun a _ => by simp [hf])
  rw [ht, hs, hd]
  rfl

theorem broadcast_lookup_ne (r : Registry) (g g' : GroupId) (p : Payload)
    (ex : Option Conn) (fails : Conn → Bool) (h : g' ≠ g) :
    lookupGroup (broadcast_to_group r g p ex fails).registry g' = lookupGroup r g' := by
  unfold broadcast_to_group
  cases hm : lookupGroup r g with
  | none => rfl
  | some members =>
      dsimp only
      split
      · rfl
      · exact lookupGroup_setGroup_ne _ _ _ _ h

theorem broadcast_keeps_entry (r : Registry) (g : GroupId) (p : Payload)
    (ex : Option Conn) (fails : Conn → Bool) (members : List Conn)
    (hm : lookupGroup r g = some members) :
    ∃ ms', lookupGroup (broadcast_to_group r g p ex fails).registry g = some ms' := by
  unfold broadcast_to_group
  rw [hm]
  dsimp only
  split
  · exact ⟨members, hm⟩
  · exact ⟨_, lookupGroup_setGroup_self _ _ _⟩

theorem count_eq_one_of_nodup_mem {α : Type} [BEq α] [LawfulBEq α] {l : List α}
    {a : α} (hnd : l.Nodup) (ha : a ∈ l) : l.count a = 1 := by
  induction l with
  | nil => simp at ha
  | cons b l ih =>
      rcases List.mem_cons.1 ha with rfl | ha'
      · rw [List.count_cons_self]
        have hout : a ∉ l := (List.nodup_cons.1 hnd).1
        rw [List.count_eq_zero.2 hout]
      · have hne : a ≠ b := by
          intro hc
          subst hc
          exact (List.nodup_cons.1 hnd).1 ha'
        rw [List.count_cons_of_ne hne]
        exact ih (List.nodup_cons.1 hnd).2 ha'

/-- C5: `connect` creates the group's registry entry if absent, adds the
websocket to the member set, and broadcasts the system announcement
`"User '<userName>' joined the chat."` to every current member with no
exclusion, so the newly joined connection itself receives the join
announcement. -/
theorem C5_join_broadcasts_to_all_including_joiner (r : Registry) (c : Conn)
    (g : GroupId) (u : String) :
    ∃ ms, lookupGroup (connect r c g u (fun _ => false)).registry g = some ms ∧
      c ∈ ms ∧
      (connect r c g u (fun _ => false)).delivered =
        ms.map (fun x => (x, joinedMsg u)) := by
  unfold connect
  dsimp only
  set members := (match lookupGroup r g with | none => [] | some ms => ms) with hmem
  set newMs := if c ∈ members then members else members ++ [c] with hnew
  have hc : c ∈ newMs := by
    by_cases h : c ∈ members
    · simp [hnew, h]
    · simp [hnew, h]
  have hlk : lookupGroup (setGroup r g newMs) g = some newMs :=
    lookupGroup_setGroup_self _ _ _
  refine ⟨newMs, ?_, hc, ?_⟩
  · rw [broadcast_registry_no_fail _ _ _ _ _ (fun _ => rfl)]
    exact hlk
  · exact broadcast_delivered_no_fail _ _ _ _ _ hlk (fun _ => rfl)

/-- C6: broadcasting to a group with `exclude_self = c` never delivers to `c`;
with no send failures it delivers the payload exactly once to each member
other than `c` (member sets, being Python sets, are duplicate-free); and a
group id with no registry entry makes the call a no-op that raises nothing. -/
theorem C6_broadcast_exclusion_and_missing_group (r : Registry) (g : GroupId)
    (p : Payload) (c : Conn) :
    (∀ (fails : Conn → Bool) pr,
        pr ∈ (broadcast_to_group r g p (some c) fails).delivered → pr.1 ≠ c) ∧
    (∀ ms, lookupGroup r g = some ms → ms.Nodup → ∀ x ∈ ms, x ≠ c →
        (broadcast_to_group r g p (some c) (fun _ => false)).delivered.count (x, p) = 1) ∧
    (∀ (ex : Option Conn) (fails : Conn → Bool),
        lookupGroup r g = none → broadcast_to_group r g p ex fails = ⟨r, [], []⟩) := by
  refine ⟨?_, ?_, ?_⟩
  · intro fails pr hpr
    unfold broadcast_to_group at hpr
    cases hm : lookupGroup r g with
    | none => rw [hm] at hpr; simp at hpr
    | some members =>
        rw [hm] at hpr
        dsimp only at hpr
        have hdel : pr ∈ ((members.filter (fun x => !isExcluded (some c) x)).filter
            (fun x => !fails x)).map (fun x => (x, p)) := by
          revert hpr; split <;> intro hpr <;> exact hpr
        obtain ⟨x, hx, rfl⟩ := List.mem_map.1 hdel
        have hx1 : x ∈ members.filter (fun x => !isExcluded (some c) x) :=
          List.mem_of_mem_filter hx
        have hx2 : (!isExcluded (some c) x) = true := (List.mem_filter.1 hx1).2
        simp [isExcluded] at hx2
        exact hx2
  · intro ms hms hnd x hx hxc
    unfold broadcast_to_group
    rw [hms]
    dsimp only
    have ht : ms.filter (fun a => !isExcluded (some c) a) =
        ms.filter (fun a => !isExcluded (some c) a) := rfl
    have hall : (ms.filter (fun a => !isExcluded (some c) a)).filter
        (fun a => !(fun _ : Conn => false) a) =
        ms.filter (fun a => !isExcluded (some c) a) :=
      List.filter_eq_self.2 (fun a _ => by simp)
    have hdis : (ms.filter (fun a => !isExcluded (some c) a)).filter
        (fun a => (fun _ : Conn => false) a) = [] :=
      List.filter_eq_nil_iff.2 (fun a _ => by simp)
    rw [hall, hdis]
    simp only [List.isEmpty_nil, if_true]
    have hinj : Function.Injective (fun a : Conn => (a, p)) := by
      intro a b hab
      simpa using congrArg Prod.fst hab
    have hmem : x ∈ ms.filter (fun a => !isExcluded (some c) a) :=
      List.mem_filter.2 ⟨hx, by simp [isExcluded, hxc]⟩
    have hnd2 : ((ms.filter (fun a => !isExcluded (some c) a)).map
        (fun a => (a, p))).Nodup := (hnd.filter _).map hinj
    have hmem2 : (x, p) ∈ (ms.filter (fun a => !isExcluded (some c) a)).map
        (fun a => (a, p)) := List.mem_map.2 ⟨x, hmem, rfl⟩
    exact count_eq_one_of_nodup_mem hnd2 hmem2
  · intro ex fails hm
    unfold broadcast_to_group
    rw [hm]

/-- C6 witness: excluding connection 2 of group `"g"` delivers exactly once
to connection 1, and a broadcast to an absent group id is a no-op. -/
theorem C6_broadcast_exclusion_and_missing_group_witness :
    ((broadcast_to_group [("g", [1, 2])] "g" (Payload.system "x") (some 2)
        (fun _ => false)).delivered.count (1, Payload.system "x") = 1) ∧
    broadcast_to_group [] "h" (Payload.system "x") none (fun _ => false) =
      ⟨[], [], []⟩ :=
  ⟨(C6_broadcast_exclusion_and_missing_group [("g", [1, 2])] "g"
      (Payload.system "x") 2).2.1 [1, 2] rfl (by decide) 1 (by decide) (by decide),
   (C6_broadcast_exclusion_and_missing_group [] "h" (Payload.system "x") 2).2.2
      none (fun _ => false) rfl⟩

/-- C7: an inbound JSON object `{"message": text}` makes the session handler
broadcast the envelope `{type: chat, sender: u, groupId: g, message: text}`
to the whole group with no exclusion, so every member including the sender's
own connection receives it. -/
theorem C7_chat_message_echoed_to_group (r : Registry) (g u text : String)
    (ms : List Conn) (hms : lookupGroup r g = some ms) :
    (handle_message r g u [("message", text)] (fun _ => false)).delivered =
        ms.map (fun x => (x, Payload.chat u g text)) ∧
      ∀ c ∈ ms, (c, Payload.chat u g text) ∈
        (handle_message r g u [("message", text)] (fun _ => false)).delivered := by
  have hj : jget [("message", text)] "message" "" = text := rfl
  unfold handle_message
  rw [hj]
  have hd := broadcast_delivered_no_fail r g (Payload.chat u g text)
    (fun _ => false) ms hms (fun _ => rfl)
  refine ⟨hd, fun c hc => ?_⟩
  rw [hd]
  exact List.mem_map.2 ⟨c, hc, rfl⟩

/-- C7 witness: `{"message": "hi"}` from user `"u"` in group `"g"` with
members 1 and 2 is echoed to both, including the sender. -/
theorem C7_chat_message_echoed_to_group_witness :
    (handle_message [("g", [1, 2])] "g" "u" [("message", "hi")]
        (fun _ => false)).delivered =
      ([1, 2] : List Conn).map (fun x => (x, Payload.chat "u" "g" "hi")) ∧
    (1, Payload.chat "u" "g" "hi") ∈
      (handle_message [("g", [1, 2])] "g" "u" [("message", "hi")]
        (fun _ => false)).delivered := by
  have h := C7_chat_message_echoed_to_group [("g", [1, 2])] "g" "u" "hi" [1, 2] rfl
  exact ⟨h.1, h.2 1 (by decide)⟩

/-- C9: an inbound JSON object with no `"message"` key is neither rejected
nor dropped: `data.get("message", "")` yields `""` and the handler
broadcasts a chat envelope with the empty message to the whole group. -/
theorem C9_missing_message_key_defaults_empty (r : Registry) (g u : String)
    (data : List (String × String)) (ms : List Conn)
    (hnone : data.find? (fun pr => pr.1 == "message") = none)
    (hms : lookupGroup r g = some ms) :
    (handle_message r g u data (fun _ => false)).delivered =
      ms.map (fun x => (x, Payload.chat u g "")) := by
  unfold handle_message
  have hj : jget data "message" "" = "" := by
    unfold jget
    rw [hnone]
  rw [hj]
  exact broadcast_delivered_no_fail r g (Payload.chat u g "")
    (fun _ => false) ms hms (fun _ => rfl)

/-- C9 witness: the object `{"other": "x"}` has no `"message"` key, and the
group still receives a chat envelope with the empty message. -/
theorem C9_missing_message_key_defaults_empty_witness :
    (handle_message [("g", [1])] "g" "u" [("other", "x")]
        (fun _ => false)).delivered =
      ([1] : List Conn).map (fun x => (x, Payload.chat "u" "g" "")) :=
  C9_missing_message_key_defaults_empty [("g", [1])] "g" "u" [("other", "x")]
    [1] rfl rfl

/-- C2: when delivery to member `c` fails during a broadcast, `c` is removed
from the group's membership before the call returns (the call itself is a
total function: the `RuntimeError` is caught, never re-raised), delivery is
still attempted to every other member minus the exclusion, and every payload
sent on this path is the broadcast envelope itself — no departure
announcement. -/
theorem C2_broadcast_failure_evicts_silently (r : Registry) (g : GroupId)
    (p : Payload) (ex : Option Conn) (fails : Conn → Bool) (ms : List Conn)
    (c : Conn) (hms : lookupGroup r g = some ms) (hc : c ∈ ms)
    (hex : isExcluded ex c = false) (hf : fails c = true) :
    (∀ ms', lookupGroup (broadcast_to_group r g p ex fails).registry g = some ms' →
        c ∉ ms') ∧
    (broadcast_to_group r g p ex fails).attempts =
        ms.filter (fun x => !isExcluded ex x) ∧
    (∀ pr ∈ (broadcast_to_group r g p ex fails).delivered, pr.2 = p) := by
  have hct : c ∈ ms.filter (fun x => !isExcluded ex x) :=
    List.mem_filter.2 ⟨hc, by simp [hex]⟩
  have hcd : c ∈ (ms.filter (fun x => !isExcluded ex x)).filter (fun x => fails x) :=
    List.mem_filter.2 ⟨hct, by simp [hf]⟩
  have hdne : ((ms.filter (fun x => !isExcluded ex x)).filter
      (fun x => fails x)).isEmpty = false := by
    cases hd : ((ms.filter (fun x => !isExcluded ex x)).filter
        (fun x => fails x)).isEmpty with
    | false => rfl
    | true =>
        rw [List.isEmpty_iff] at hd
        rw [hd] at hcd
        simp at hcd
  refine ⟨?_, ?_, ?_⟩
  · intro ms' hms' hcms'
    unfold broadcast_to_group at hms'
    rw [hms] at hms'
    dsimp only at hms'
    rw [hdne] at hms'
    simp only [Bool.false_eq_true, if_false] at hms'
    rw [lookupGroup_setGroup_self] at hms'
    cases hms'
    have hkept := (List.mem_filter.1 hcms').2
    simp only [Bool.not_eq_true'] at hkept
    have hkept2 : List.elem c ((ms.filter (fun x => !isExcluded ex x)).filter
        (fun x => fails x)) = false := hkept
    rw [← List.elem_iff] at hcd
    rw [hkept2] at hcd
    exact Bool.false_ne_true hcd
  · unfold broadcast_to_group
    rw [hms]
    dsimp only
    rw [hdne]
    simp only [Bool.false_eq_true, if_false]
  · intro pr hpr
    unfold broadcast_to_group at hpr
    rw [hms] at hpr
    dsimp only at hpr
    rw [hdne] at hpr
    simp only [Bool.false_eq_true, if_false] at hpr
    obtain ⟨x, _, rfl⟩ := List.mem_map.1 hpr
    rfl

/-- C2 witness: a two-member group where the send to connection 1 fails. -/
theorem C2_broadcast_failure_evicts_silently_witness :
    (∀ ms', lookupGroup (broadcast_to_group [("g", [1, 2])] "g"
        (Payload.system "x") none (fun c => c == 1)).registry "g" = some ms' →
        1 ∉ ms') ∧
    (broadcast_to_group [("g", [1, 2])] "g" (Payload.system "x") none
        (fun c => c == 1)).attempts =
      ([1, 2] : List Conn).filter (fun x => !isExcluded none x) ∧
    (∀ pr ∈ (broadcast_to_group [("g", [1, 2])] "g" (Payload.system "x") none
        (fun c => c == 1)).delivered, pr.2 = Payload.system "x") :=
  C2_broadcast_failure_evicts_silently [("g", [1, 2])] "g" (Payload.system "x")
    none (fun c => c == 1) [1, 2] 1 rfl (by decide) rfl rfl

/-- C3 counterexample: the group `"g"` exists but connection 1 is not a
member; the claim says `Leave` is then a no-op raising no error, but
`set.remove` raises `KeyError`. -/
theorem C3_counterexample_leave_raises_on_absent_member :
    disconnect [("g", [2])] 1 "g" = Except.error () := rfl

/-- C3 amended: `Leave` removes the websocket when present, deleting the
group entry when the set becomes empty; it is a silent no-op when the group
has no registry entry; but when the group exists and the websocket is not a
member, it raises `KeyError` instead of being a no-op. -/
theorem C3_leave_behavior_amended (r : Registry) (c : Conn) (g : GroupId) :
    (lookupGroup r g = none → disconnect r c g = Except.ok r) ∧
    (∀ ms, lookupGroup r g = some ms → c ∈ ms →
      disconnect r c g = Except.ok
        (if (ms.erase c).isEmpty then delGroup r g else setGroup r g (ms.erase c))) ∧
    (∀ ms, lookupGroup r g = some ms → c ∉ ms →
      disconnect r c g = Except.error ()) := by
  refine ⟨?_, ?_, ?_⟩
  · intro hnone
    unfold disconnect
    rw [hnone]
  · intro ms hms hc
    unfold disconnect
    rw [hms]
    dsimp only
    rw [if_pos hc]
    by_cases he : (ms.erase c).isEmpty
    · rw [if_pos he, if_pos he]
    · rw [if_neg he, if_neg he]
  · intro ms hms hc
    unfold disconnect
    rw [hms]
    dsimp only
    rw [if_neg hc]

/-- C3 witness: removal with a member left over, removal of the last member,
the no-op on a missing group, and the `KeyError` on an absent member. -/
theorem C3_leave_behavior_amended_witness :
    disconnect [("g", [1, 2])] 1 "g" = Except.ok [("g", [2])] ∧
    disconnect [("g", [1])] 1 "g" = Except.ok [] ∧
    disconnect [] 1 "g" = Except.ok [] ∧
    disconnect [("g", [2])] 1 "g" = Except.error () := by
  refine ⟨?_, ?_, ?_, ?_⟩
  · exact ((C3_leave_behavior_amended [("g", [1, 2])] 1 "g").2.1 [1, 2] rfl
      (by decide)).trans rfl
  · exact ((C3_leave_behavior_amended [("g", [1])] 1 "g").2.1 [1] rfl
      (by decide)).trans rfl
  · exact (C3_leave_behavior_amended [] 1 "g").1 rfl
  · exact (C3_leave_behavior_amended [("g", [2])] 1 "g").2.2 [2] rfl (by decide)

/-- C4 counterexample: connection 1 of group `"g"` exits its loop through the
generic `except Exception` handler; `disconnect` runs (member 2 remains) but
no `"User 'u' left the chat."` announcement is delivered to anyone, contrary
to the claim that the departure is announced on every exit path. -/
theorem C4_counterexample_no_announcement_on_error_exit :
    handle_exit [("g", [1, 2])] 1 "g" "u" ExitKind.otherError (fun _ => false) =
      Except.ok ⟨[("g", [2])], [], []⟩ := rfl

/-- C4 amended: on a clean transport disconnect (`WebSocketDisconnect`) the
handler calls `Leave` and then broadcasts the departure announcement to the
remaining members with no exclusion; on any other transport-level error it
calls `Leave` but broadcasts no departure announcement. -/
theorem C4_exit_paths_amended (r : Registry) (c : Conn) (g u : String)
    (ms : List Conn) (hms : lookupGroup r g = some ms) (hc : c ∈ ms)
    (hne : ¬ (ms.erase c).isEmpty) :
    (∃ res, handle_exit r c g u ExitKind.clientDisconnect (fun _ => false) =
        Except.ok res ∧
      res.delivered = (ms.erase c).map (fun x => (x, leftMsg u))) ∧
    (∃ res, handle_exit r c g u ExitKind.otherError (fun _ => false) =
        Except.ok res ∧ res.delivered = []) := by
  have hdis : disconnect r c g = Except.ok (setGroup r g (ms.erase c)) := by
    unfold disconnect
    rw [hms]
    dsimp only
    rw [if_pos hc, if_neg hne]
  constructor
  · refine ⟨broadcast_to_group (setGroup r g (ms.erase c)) g (leftMsg u) none
      (fun _ => false), ?_, ?_⟩
    · unfold handle_exit
      rw [hdis]
    · exact broadcast_delivered_no_fail _ _ _ _ _
        (lookupGroup_setGroup_self _ _ _) (fun _ => rfl)
  · refine ⟨⟨setGroup r g (ms.erase c), [], []⟩, ?_, rfl⟩
    unfold handle_exit
    rw [hdis]

/-- C4 witness: group `"g"` with members 1 and 2, connection 1 exits. -/
theorem C4_exit_paths_amended_witness :
    (∃ res, handle_exit [("g", [1, 2])] 1 "g" "u" ExitKind.clientDisconnect
        (fun _ => false) = Except.ok res ∧
      res.delivered = (([1, 2] : List Conn).erase 1).map
        (fun x => (x, leftMsg "u"))) ∧
    (∃ res, handle_exit [("g", [1, 2])] 1 "g" "u" ExitKind.otherError
        (fun _ => false) = Except.ok res ∧ res.delivered = []) :=
  C4_exit_paths_amended [("g", [1, 2])] 1 "g" "u" [1, 2] rfl (by decide) (by decide)

/-- C10: a registry operation addressed to group `g` leaves every other
group's entry unchanged: `connect`, a successful `disconnect`, and
`broadcast_to_group` all preserve the lookup of any `g' ≠ g`. -/
theorem C10_operations_preserve_other_groups (r : Registry) (c : Conn)
    (g g' : GroupId) (u : String) (p : Payload) (ex : Option Conn)
    (fails : Conn → Bool) (hne : g' ≠ g) :
    lookupGroup (connect r c g u fails).registry g' = lookupGroup r g' ∧
    (∀ r', disconnect r c g = Except.ok r' → lookupGroup r' g' = lookupGroup r g') ∧
    lookupGroup (broadcast_to_group r g p ex fails).registry g' = lookupGroup r g' := by
  refine ⟨?_, ?_, ?_⟩
  · unfold connect
    dsimp only
    rw [broadcast_lookup_ne _ _ _ _ _ _ hne]
    exact lookupGroup_setGroup_ne _ _ _ _ hne
  · intro r' hr'
    unfold disconnect at hr'
    cases hm : lookupGroup r g with
    | none =>
        rw [hm] at hr'
        cases hr'
        rfl
    | some members =>
        rw [hm] at hr'
        dsimp only at hr'
        by_cases hcm : c ∈ members
        · rw [if_pos hcm] at hr'
          by_cases he : (members.erase c).isEmpty
          · rw [if_pos he] at hr'
            cases hr'
            exact lookupGroup_delGroup_ne _ _ _ hne
          · rw [if_neg he] at hr'
            cases hr'
            exact lookupGroup_setGroup_ne _ _ _ _ hne
        · rw [if_neg hcm] at hr'
          cases hr'
  · exact broadcast_lookup_ne _ _ _ _ _ _ hne

/-- C10 witness: operations on group `"g"` leave group `"h"` untouched. -/
theorem C10_operations_preserve_other_groups_witness :
    lookupGroup (connect [("h", [5])] 1 "g" "u" (fun _ => false)).registry "h" =
      lookupGroup [("h", [5])] "h" ∧
    (∀ r', disconnect [("h", [5])] 1 "g" = Except.ok r' →
      lookupGroup r' "h" = lookupGroup [("h", [5])] "h") ∧
    lookupGroup (broadcast_to_group [("h", [5])] "g" (Payload.system "x") none
      (fun _ => false)).registry "h" = lookupGroup [("h", [5])] "h" :=
  C10_operations_preserve_other_groups [("h", [5])] 1 "g" "h" "u"
    (Payload.system "x") none (fun _ => false) (by decide)

theorem noEmptyGroups_setGroup {r : Registry} {g : GroupId} {ms : List Conn}
    (hr : noEmptyGroups r) (hms : ms ≠ []) : noEmptyGroups (setGroup r g ms) := by
  intro e he
  rcases mem_setGroup he with h | h
  · exact hr e h
  · rw [h]
    exact hms

theorem noEmptyGroups_delGroup {r : Registry} {g : GroupId}
    (hr : noEmptyGroups r) : noEmptyGroups (delGroup r g) :=
  fun e he => hr e (mem_delGroup he)

theorem applyOp_preserves_noEmptyGroups (r : Registry) (op : Op)
    (hf : evictionFree op) (hr : noEmptyGroups r) : noEmptyGroups (applyOp r op) := by
  cases op with
  | join c g u fails =>
      show noEmptyGroups (connect r c g u fails).registry
      unfold connect
      dsimp only
      rw [broadcast_registry_no_fail _ _ _ _ _ hf]
      set members := (match lookupGroup r g with | none => [] | some ms => ms)
        with hmem
      apply noEmptyGroups_setGroup hr
      by_cases h : c ∈ members
      · rw [if_pos h]
        exact List.ne_nil_of_mem h
      · rw [if_neg h]
        exact List.append_ne_nil_of_right_ne_nil _ (by simp)
  | leave c g =>
      show noEmptyGroups (match disconnect r c g with
        | Except.ok r' => r'
        | Except.error _ => r)
      unfold disconnect
      cases hm : lookupGroup r g with
      | none => exact hr
      | some members =>
          dsimp only
          by_cases hcm : c ∈ members
          · rw [if_pos hcm]
            by_cases he : (members.erase c).isEmpty
            · rw [if_pos he]
              exact noEmptyGroups_delGroup hr
            · rw [if_neg he]
              apply noEmptyGroups_setGroup hr
              intro hnil
              rw [hnil] at he
              exact he rfl
          · rw [if_neg hcm]
            exact hr
  | bcast g p ex fails =>
      show noEmptyGroups (broadcast_to_group r g p ex fails).registry
      rw [broadcast_registry_no_fail _ _ _ _ _ hf]
      exact hr

theorem runOps_preserves_noEmptyGroups (ops : List Op) (r : Registry)
    (hr : noEmptyGroups r) (hf : ∀ op ∈ ops, evictionFree op) :
    noEmptyGroups (runOps r ops) := by
  induction ops generalizing r with
  | nil => exact hr
  | cons op ops ih =>
      exact ih _ (applyOp_preserves_noEmptyGroups r op (hf op (by simp)) hr)
        (fun o ho => hf o (by simp [ho]))

/-- C1 counterexample: join connection 1 to group `"g"`, then broadcast while
every send fails.  The eviction empties the group, but `broadcast_to_group`
has no emptiness check: the registry still holds an entry for `"g"` with an
empty member set, so the entry-iff-nonempty invariant is violated and the
entry is not deleted before the call returns. -/
theorem C1_counterexample_empty_entry_after_eviction :
    lookupGroup (runOps [] [Op.join 1 "g" "u" (fun _ => false),
      Op.bcast "g" (Payload.chat "u" "g" "hi") none (fun _ => true)]) "g" =
      some [] := rfl

/-- C1 amended: over any sequence of Join, Leave and broadcast operations in
which no send fails, the registry never holds an empty group (`Leave` does
delete an emptied group); but eviction of failed connections during
`broadcast_to_group` never deletes the group's entry — when eviction empties
the group, the entry remains in the registry with an empty member set. -/
theorem C1_registry_invariant_amended :
    (∀ ops : List Op, (∀ op ∈ ops, evictionFree op) →
      noEmptyGroups (runOps [] ops)) ∧
    (∀ (r : Registry) (g : GroupId) (p : Payload) (ex : Option Conn)
        (fails : Conn → Bool) (ms : List Conn), lookupGroup r g = some ms →
      ∃ ms', lookupGroup (broadcast_to_group r g p ex fails).registry g = some ms') :=
  ⟨fun ops hf => runOps_preserves_noEmptyGroups ops [] (fun e he => absurd he
      (List.not_mem_nil e)) hf,
   fun r g p ex fails ms hms => broadcast_keeps_entry r g p ex fails ms hms⟩

/-- C1 witness: a join-then-leave sequence keeps the invariant, and a
broadcast that evicts the last member keeps the group's entry. -/
theorem C1_registry_invariant_amended_witness :
    noEmptyGroups (runOps [] [Op.join 1 "g" "u" (fun _ => false),
      Op.leave 1 "g"]) ∧
    ∃ ms', lookupGroup (broadcast_to_group [("g", [1])] "g" (Payload.system "x")
      none (fun _ => true)).registry "g" = some ms' := by
  constructor
  · apply C1_registry_invariant_amended.1
    intro op hop
    rcases List.mem_cons.1 hop with h | h
    · rw [h]
      exact fun c => rfl
    · rcases List.mem_cons.1 h with h' | h'
      · rw [h']
        exact trivial
      · exact absurd h' (List.not_mem_nil op)
  · exact C1_registry_invariant_amended.2 [("g", [1])] "g" (Payload.system "x")
      none (fun _ => true) [1] rfl

end ConnMgr
